import Mathlib

/-!
# Verification of the TV-show search app (yuvrajdomun/tv-show-search-app)

A shallow embedding of the search pipeline of `src/app.js` and
`src/app-optimized.js`: input sanitization, search-history maintenance,
the filter/sort derivation, the error-to-message mapping, the debounced
search timer, the cancel-on-supersede request sequencing, and the
channel/category search.  Strings are modelled as Lean `String`
(`List Char` underneath), JS numbers occurring in comparators as `Rat`,
and the browser event loop as explicit step functions over small state
types.  Definitions are transcribed from the JavaScript source;
theorems settle the specification's claims about them.
-/

/-! ## JS string primitives

`List Char` level building blocks for the string operations the app uses:
`String.prototype.replace(/[<>\"'&]/g, "")`, `replace(/\s+/g, " ")`,
`substring(0, 100)`, `trim()`, `toLowerCase()`, `includes()`.
-/

/-- The characters removed by the sanitizer's regex `/[<>\"'&]/g`. -/
def isBadChar (c : Char) : Bool :=
  c = '<' || c = '>' || c = '"' || c = Char.ofNat 39 || c = '&'

/-- JS regex `\s` / `trim()` whitespace, restricted to the ASCII range
(space, tab, line feed, vertical tab, form feed, carriage return). -/
def isJsWs (c : Char) : Bool :=
  c = ' ' || c = '\t' || c = '\n' || c = '\r' ||
    c = Char.ofNat 11 || c = Char.ofNat 12

/-- JS `replace(/[<>\"'&]/g, "")` on the character list. -/
def stripBad (l : List Char) : List Char :=
  l.filter (fun c => !isBadChar c)

/-- Worker for `replace(/\s+/g, " ")`: the flag records whether the
previous input character belonged to a whitespace run that has already
emitted its single `' '`. -/
def collapseGo : Bool → List Char → List Char
  | _, [] => []
  | prevWs, c :: cs =>
    if isJsWs c then
      if prevWs then collapseGo true cs else ' ' :: collapseGo true cs
    else c :: collapseGo false cs

/-- JS `replace(/\s+/g, " ")`: every maximal whitespace run becomes one space. -/
def collapseWs (l : List Char) : List Char :=
  collapseGo false l

/-- JS `trim()` from the left. -/
def trimL (l : List Char) : List Char :=
  l.dropWhile isJsWs

/-- JS `trim()` from the right. -/
def trimR (l : List Char) : List Char :=
  (l.reverse.dropWhile isJsWs).reverse

/-- JS `String.prototype.trim()`. -/
def jsTrim (l : List Char) : List Char :=
  trimR (trimL l)

/-- JS `String.prototype.trim` lifted to `String`. -/
def jsTrimStr (s : String) : String :=
  ⟨jsTrim s.data⟩

/-- JS `String.prototype.toLowerCase`, character by character. -/
def jsToLower (s : String) : String :=
  ⟨s.data.map Char.toLower⟩

/-- Does `l` start with the segment `seg`? (helper for `includes`). -/
def startsWithSeg : List Char → List Char → Bool
  | _, [] => true
  | [], _ :: _ => false
  | c :: cs, d :: ds => c = d && startsWithSeg cs ds

/-- Does `hay` contain `seg` as a contiguous segment?  Model of JS
`String.prototype.includes`. -/
def hasSeg : List Char → List Char → Bool
  | [], seg => seg.isEmpty
  | c :: cs, seg => startsWithSeg (c :: cs) seg || hasSeg cs seg

/-- JS `hay.includes(sub)` on strings. -/
def jsIncludes (hay sub : String) : Bool :=
  hasSeg hay.data sub.data

namespace App

/-- Function `sanitizeInput` of `src/app.js` (lines 601-606): strip `<>"'&`,
`substring(0, 100)`, `trim()`.  Note: *no* whitespace collapsing in this
variant. -/
def sanitizeInput (input : String) : String :=
  ⟨jsTrim ((stripBad input.data).take 100)⟩

/-- Function `addToSearchHistory` of `src/app.js` (lines 585-599): remove any
existing equal entry, prepend, keep the first 10. -/
def addToSearchHistory (history : List String) (searchTerm : String) :
    List String :=
  ((searchTerm :: history.filter (fun term => term ≠ searchTerm)).take 10)

/-- The fetch issued by `performSearch` of `src/app.js` (lines 551-583),
projected to its query: the term is sanitized and the request is issued
unconditionally — there is no empty-after-sanitization guard in this
variant. -/
def performSearchFetch (searchTerm : String) : Option String :=
  some (sanitizeInput searchTerm)

end App

namespace AppOpt

/-- Function `sanitizeInput` of `src/app-optimized.js` (lines 525-533): strip
`<>"'&`, collapse whitespace runs to single spaces, `substring(0, 100)`,
`trim()`. -/
def sanitizeInput (input : String) : String :=
  ⟨jsTrim ((collapseWs (stripBad input.data)).take 100)⟩

/-- Function `addToSearchHistory` of `src/app-optimized.js` (lines 512-522):
terms shorter than 2 characters are ignored; otherwise dedupe, prepend,
keep the first 10. -/
def addToSearchHistory (history : List String) (searchTerm : String) :
    List String :=
  if searchTerm = "" || searchTerm.length < 2 then history
  else (searchTerm :: history.filter (fun term => term ≠ searchTerm)).take 10

/-- The fetch issued by `performSearch` of `src/app-optimized.js`
(lines 456-509), projected to its query: an empty sanitized term throws
`Invalid search term` before the request is issued. -/
def performSearchFetch (searchTerm : String) : Option String :=
  let sanitizedTerm := sanitizeInput searchTerm
  if sanitizedTerm = "" then none else some sanitizedTerm

end AppOpt

/-! ## Data model and filter/sort derivation (`applyFilters`, app.js 660-718) -/

/-- A show as used by `applyFilters`, `searchByChannel` and rendering.
`premieredYear` models `new Date(show.premiered).getFullYear()` at the
boundary (`none` when `show.premiered` is falsy); `ratingAvg` models
`show.rating?.average` (`none` when `rating` is null or has no average);
`networkName`/`webChannelName` model `show.network?.name` /
`show.webChannel?.name` (`none` when the object is null). -/
structure ShowRec where
  id : Nat
  name : String
  genres : List String
  status : String
  networkName : Option String
  webChannelName : Option String
  ratingAvg : Option Rat
  premieredYear : Option Int
deriving DecidableEq

/-- One element of the API's search response: a wrapper holding a show. -/
structure SearchItem where
  show' : ShowRec
deriving DecidableEq

/-- The filter state read by `applyFilters`: the four `<select>` values
(`""` meaning "all", `"relevance"` being the default sort), the
favorites-only toggle, and the identifiers with a truthy entry in
`this.favorites`. -/
structure FilterState where
  genre : String
  status : String
  channel : String
  favoritesOnly : Bool
  favorites : List Nat
  sortBy : String
deriving DecidableEq

/-- JS `x || y` for strings (`""` is falsy). -/
def jsOrStr (a b : String) : String :=
  if a = "" then b else a

/-- JS `show.network?.name || show.webChannel?.name || ""`. -/
def networkOf (s : ShowRec) : String :=
  jsOrStr (s.networkName.getD "") (s.webChannelName.getD "")

/-- JS `a.show.rating?.average || 0` (a missing — or zero — rating counts
as 0). -/
def ratingVal (s : ShowRec) : Rat :=
  s.ratingAvg.getD 0

/-- JS `a.show.premiered ? new Date(a.show.premiered).getFullYear() : 0`. -/
def yearVal (s : ShowRec) : Int :=
  s.premieredYear.getD 0

/-- JS `a.show.name.localeCompare(b.show.name)` modelled at the boundary as
the code-point comparison, returning the sign expected of a JS
comparator. -/
def localeCompare (a b : String) : Rat :=
  match compare a b with
  | .lt => -1
  | .eq => 0
  | .gt => 1

/-- The four filter passes of `applyFilters` (app.js lines 663-690):
genre membership, status equality, case-insensitive channel substring,
favorites membership.  Each `<select>` value is applied only when
truthy. -/
def filterChain (raw : List SearchItem) (fs : FilterState) : List SearchItem :=
  let f1 := if fs.genre ≠ "" then
      raw.filter (fun it => it.show'.genres.contains fs.genre) else raw
  let f2 := if fs.status ≠ "" then
      f1.filter (fun it => it.show'.status = fs.status) else f1
  let f3 := if fs.channel ≠ "" then
      f2.filter (fun it =>
        jsIncludes (jsToLower (networkOf it.show')) (jsToLower fs.channel))
    else f2
  if fs.favoritesOnly then
    f3.filter (fun it => fs.favorites.contains it.show'.id) else f3

/-- The comparator passed to `filtered.sort` (app.js lines 694-713):
rating descending, locale name ascending, premiere year descending, or
constantly 0 for the default `"relevance"` branch. -/
def sortCmp (sortBy : String) (a b : SearchItem) : Rat :=
  if sortBy = "rating" then ratingVal b.show' - ratingVal a.show'
  else if sortBy = "name" then localeCompare a.show'.name b.show'.name
  else if sortBy = "year" then (yearVal b.show' - yearVal a.show' : Int)
  else 0

/-- Insert `x` into `l` in front of the first element `y` with
`cmp x y ≤ 0`.  Helper for the stable-sort model. -/
def sortInsert (cmp : α → α → Rat) (x : α) : List α → List α
  | [] => [x]
  | y :: ys => if cmp x y ≤ 0 then x :: y :: ys else y :: sortInsert cmp x ys

/-- Model of `Array.prototype.sort` with a consistent comparator: the
ECMAScript specification requires a stable sort, whose output — sorted
by the comparator's preorder with ties kept in original order — this
insertion sort produces. -/
def jsStableSort (cmp : α → α → Rat) : List α → List α
  | [] => []
  | x :: xs => sortInsert cmp x (jsStableSort cmp xs)

/-- Method `applyFilters` (app.js lines 660-718) as a function from the state
it reads — `this.currentResults` and the filter state — to the pair
(`this.currentResults` after the call, `this.filteredResults` after the
call).  The JS body copies the array (`[...this.currentResults]`) and
sorts the copy in place, so the raw result set is returned unchanged. -/
def applyFilters (currentResults : List SearchItem) (fs : FilterState) :
    List SearchItem × List SearchItem :=
  let filtered := filterChain currentResults fs
  (currentResults, jsStableSort (sortCmp fs.sortBy) filtered)

/-! ## Error handling (`showError` app.js 908-913, `handleError` app.js 969-1004) -/

/-- The shape of the error value `handleError` inspects: its `name`
(`"AbortError"` marks a cancelled request), axios's `code`, its
`message`, `error.response?.status` (`none` when no response arrived),
and whether `error.request` is set. -/
structure JsError where
  name : String
  code : String
  message : String
  responseStatus : Option Nat
  hasRequest : Bool
deriving DecidableEq

/-- The message cascade of `handleError` (app.js lines 972-1000): the
local variable `errorMessage` after all branches ran, for a non-abort
error. -/
def errorMessageText (e : JsError) : String :=
  if e.code = "ECONNABORTED" || jsIncludes e.message "timeout" then
    "Request timed out. Please check your connection and try again."
  else
    match e.responseStatus with
    | some 404 => "TV show database not found. Please try again later."
    | some 429 => "Too many requests. Please wait a moment and try again."
    | some 500 => "Server error. Please try again later."
    | some 502 => "Server error. Please try again later."
    | some 503 => "Server error. Please try again later."
    | some status => "Server error (" ++ toString status ++ "). Please try again."
    | none =>
      if e.hasRequest then
        "Network error. Please check your internet connection."
      else "An unexpected error occurred. Please try again."

/-- The UI state touched by the error path: the raw and derived result
data and the text of the error panel (`none` while the panel is
hidden). -/
structure UiState where
  currentResults : List SearchItem
  filteredResults : List SearchItem
  errorShown : Option String
deriving DecidableEq

/-- Method `showError` (app.js lines 908-913): set the message, unhide the
error panel, empty the rendered results markup and hide the stats bar.
The result *data* (`this.currentResults`, `this.filteredResults`) is
not touched. -/
def showError (s : UiState) (message : String) : UiState :=
  { s with errorShown := some message }

/-- Method `handleError` (app.js lines 969-1004): silent on `AbortError`,
otherwise show the mapped message in the error panel and emit it once
as a toast.  The second component lists the toast texts emitted. -/
def handleError (s : UiState) (e : JsError) : UiState × List String :=
  if e.name = "AbortError" then (s, [])
  else (showError s (errorMessageText e), [errorMessageText e])

/-- Modelled from the spec (§7): the failure taxonomy of the spec's
error-handling design — timeout, HTTP 404 / 429 / 5xx / other status,
request-without-response, and unknown. -/
inductive ErrCategory
  | timeout
  | notFound
  | rateLimited
  | serverDown
  | serverOther (status : Nat)
  | network
  | unknown
deriving DecidableEq

/-- The failure category of a (non-abort) error, per the spec's §7
taxonomy read off the error's fields. -/
def errCategory (e : JsError) : ErrCategory :=
  if e.code = "ECONNABORTED" || jsIncludes e.message "timeout" then .timeout
  else
    match e.responseStatus with
    | some 404 => .notFound
    | some 429 => .rateLimited
    | some 500 => .serverDown
    | some 502 => .serverDown
    | some 503 => .serverDown
    | some status => .serverOther status
    | none => if e.hasRequest then .network else .unknown

/-- The fixed failure-category-to-message mapping (spec §7, message
texts from the code). -/
def categoryMessage : ErrCategory → String
  | .timeout => "Request timed out. Please check your connection and try again."
  | .notFound => "TV show database not found. Please try again later."
  | .rateLimited => "Too many requests. Please wait a moment and try again."
  | .serverDown => "Server error. Please try again later."
  | .serverOther status => "Server error (" ++ toString status ++ "). Please try again."
  | .network => "Network error. Please check your internet connection."
  | .unknown => "An unexpected error occurred. Please try again."

/-! ## Channel/category search (`searchByChannel` app.js 353-400,
`searchChannelFallback` app.js 402-424) -/

/-- The predicate of the `response.data.filter` in `searchByChannel`
(app.js lines 372-378): bidirectional case-insensitive substring match
between the derived network string and the clicked category label. -/
def matchesChannel (channel : String) (s : ShowRec) : Bool :=
  let network := networkOf s
  jsIncludes (jsToLower network) (jsToLower channel) ||
    jsIncludes (jsToLower channel) (jsToLower network)

/-- Outcome of a category click, at the decision point after the full
catalog was filtered: the direct matches (wrapped like search results),
the free-text fallback query, if any, and the search history after the
whole operation. -/
structure ChannelSearchOutcome where
  directResults : List SearchItem
  fallbackQuery : Option String
  historyAfter : List String
deriving DecidableEq

/-- Method `searchByChannel` (app.js lines 353-400) over a fetched catalog:
filter by `matchesChannel`; on zero matches run
`searchChannelFallback`, which issues
`axios.get(this.baseURL, { params: { q: channel } })` with the *raw*
label — it calls neither `sanitizeInput` nor `addToSearchHistory` and
creates no new `AbortController`.  Neither path touches the search
history.  (Rendering and toasts are elided.) -/
def searchByChannel (catalog : List ShowRec) (channel : String)
    (history : List String) : ChannelSearchOutcome :=
  let channelShows := catalog.filter (matchesChannel channel)
  let results := channelShows.map (fun sh => ({ show' := sh } : SearchItem))
  if results.length = 0 then
    { directResults := results
      fallbackQuery := some channel
      historyAfter := history }
  else
    { directResults := results
      fallbackQuery := none
      historyAfter := history }

/-! ## Debounced search (`debouncedSearch` app.js 426-443)

A discrete-time model of the single `setTimeout` slot
(`this.searchTimeout`): the state holds the pending timer (absolute
fire time and captured term), `this.lastSearchTerm`, and the list of
terms passed to `performSearch` so far. -/

structure DebounceState where
  timer : Option (Nat × String)
  lastSearchTerm : String
  fetches : List String
deriving DecidableEq

/-- Let the pending timer fire if its deadline has been reached: the
callback runs `performSearch(term)`, which records
`this.lastSearchTerm = term` and issues the fetch. -/
def fireDue (now : Nat) (s : DebounceState) : DebounceState :=
  match s.timer with
  | some (deadline, term) =>
    if deadline ≤ now then
      { timer := none, lastSearchTerm := term, fetches := s.fetches ++ [term] }
    else s
  | none => s

/-- One `input` event at time `now` with trimmed value `value`, running
`debouncedSearch` (app.js lines 426-443): any due timer has fired
beforehand; `clearTimeout` cancels the pending timer; values shorter
than 2 characters and values equal to `this.lastSearchTerm` set no new
timer; otherwise a 300-unit timer for `value` is started. -/
def keystroke (s : DebounceState) (now : Nat) (value : String) :
    DebounceState :=
  let s0 := fireDue now s
  let s1 := { s0 with timer := none }
  if value = "" || value.length < 2 then s1
  else if value = s1.lastSearchTerm then s1
  else { s1 with timer := some (now + 300, value) }

/-- Run a timestamped keystroke sequence, then let any timer that is
due by `horizon` fire. -/
def runDebounce (s : DebounceState) (keys : List (Nat × String))
    (horizon : Nat) : DebounceState :=
  fireDue horizon (keys.foldl (fun st k => keystroke st k.1 k.2) s)

/-! ## Request sequencing (`performSearch` app.js 551-583)

Event-loop model of the single-flight abort discipline.  Issued
requests are numbered by consecutive generations (one per
`AbortController`); `performSearch` aborts the previous controller
before issuing.  Once `abort()` fires, the axios promise of that
generation settles by *rejection*, so its fulfillment callback never
runs; the rejection value is whatever error object axios delivers, and
the only cancellation swallow in the code is `handleError`'s
`error.name === "AbortError"` check. -/

/-- What the results area is showing. -/
inductive DisplayKind
  | initial
  | loading
  | noResults
  | results (items : List SearchItem)
  | errorMsg (message : String)
deriving DecidableEq

/-- The controller state relevant to request sequencing. -/
structure RaceState where
  nextGen : Nat
  latest : Option Nat
  aborted : List Nat
  currentResults : List SearchItem
  display : DisplayKind
deriving DecidableEq

/-- The validity filter of `displayResults` (app.js lines 616-618):
`item.show && item.show.name && item.show.name.trim() !== ""`. -/
def validShowItem (it : SearchItem) : Bool :=
  it.show'.name ≠ "" && jsTrimStr it.show'.name ≠ ""

/-- The success path of `performSearch` for a request that was *not*
superseded: `this.currentResults = response.data || []` followed by
`displayResults` (app.js lines 608-628) — empty or all-invalid data
shows the no-results card, otherwise the valid shows are clamped to 50
and displayed. -/
def acceptResponse (s : RaceState) (data : List SearchItem) : RaceState :=
  let s1 := { s with currentResults := data }
  if data.length = 0 then { s1 with display := .noResults }
  else
    let validShows := data.filter validShowItem
    if validShows.length = 0 then { s1 with display := .noResults }
    else
      { s1 with
        currentResults := validShows.take 50
        display := .results (validShows.take 50) }

/-- The events of the request-sequencing model: a new search being
issued, and the completion (success or failure) of the request of a
given generation. -/
inductive RaceEvent
  | issue (q : String)
  | respondOk (gen : Nat) (data : List SearchItem)
  | respondErr (gen : Nat) (e : JsError)

/-- One event-loop step.  `issue` is the front of `performSearch`
(app.js lines 553-564): abort the previous controller, install a fresh
one, show the loading state.  A `respondOk` for an aborted generation
is dead — calling `abort()` already settled that promise by rejection,
so its fulfillment handler can never run (promise semantics, not app
code) — otherwise the success body runs `acceptResponse`.  A
`respondErr` runs the `catch` of `performSearch`, i.e. `handleError`
(app.js lines 969-1004): its *only* cancellation swallow is the
`error.name === "AbortError"` check; any other rejection — whatever
generation it belongs to — shows the mapped error message. -/
def raceStep (s : RaceState) : RaceEvent → RaceState
  | .issue _q =>
    { nextGen := s.nextGen + 1
      latest := some s.nextGen
      aborted := match s.latest with
        | some g => g :: s.aborted
        | none => s.aborted
      currentResults := s.currentResults
      display := .loading }
  | .respondOk gen data =>
    if gen ∈ s.aborted then s else acceptResponse s data
  | .respondErr _gen e =>
    if e.name = "AbortError" then s
    else { s with display := .errorMsg (errorMessageText e) }

/-- Fold a list of events through `raceStep`. -/
def raceSteps (s : RaceState) (evs : List RaceEvent) : RaceState :=
  evs.foldl raceStep s

/-- The rejection value axios delivers when a request is aborted
through its `signal`, modelled at the library boundary: a
`CanceledError` with name `"CanceledError"` and code `"ERR_CANCELED"`
(earlier axios versions use a bare `Cancel`) — in no version the name
`"AbortError"` that `handleError` tests for. -/
def axiosCancelError : JsError :=
  { name := "CanceledError", code := "ERR_CANCELED", message := "canceled",
    responseStatus := none, hasRequest := true }


/-! ## Shape predicates for sanitized strings -/

/-- Is the first character, if any, not whitespace? -/
def noWsHead : List Char → Bool
  | [] => true
  | c :: _ => !isJsWs c

/-- No two adjacent whitespace characters (no whitespace run survives). -/
def NoWsRun (l : List Char) : Prop :=
  List.Chain' (fun a b => ¬(isJsWs a = true ∧ isJsWs b = true)) l

/-- Every whitespace character of the list is a plain space. -/
def AllWsSpace (l : List Char) : Prop :=
  ∀ c ∈ l, isJsWs c = true → c = ' '

/-! ## Helper lemmas -/

theorem hasSeg_nil_seg (hay : List Char) : hasSeg hay [] = true := by
  cases hay <;> simp [hasSeg, startsWithSeg, List.isEmpty]

theorem jsIncludes_empty_seg (s : String) : jsIncludes s "" = true :=
  hasSeg_nil_seg s.data

theorem errorMessageText_eq (e : JsError) :
    errorMessageText e = categoryMessage (errCategory e) := by
  unfold errorMessageText errCategory
  split
  · rfl
  · split <;> first | rfl | (split <;> rfl)

/-! ## Claims -/

/-- C10: in the channel-category search, a show whose `network` and
`webChannel` are both absent derives the empty network string and
matches every category label, because the label-contains-network
direction of the bidirectional substring test is trivially true for the
empty string. -/
theorem networkless_matches_every_channel (s : ShowRec) (channel : String)
    (h1 : s.networkName = none) (h2 : s.webChannelName = none) :
    networkOf s = "" ∧
    jsIncludes (jsToLower channel) (jsToLower (networkOf s)) = true ∧
    matchesChannel channel s = true := by
  have hnet : networkOf s = "" := by simp [networkOf, h1, h2, jsOrStr]
  have hdir : jsIncludes (jsToLower channel) (jsToLower "") = true := by
    simpa [jsIncludes, jsToLower] using hasSeg_nil_seg (channel.data.map Char.toLower)
  refine ⟨hnet, by rw [hnet]; exact hdir, ?_⟩
  simp [matchesChannel, hnet, hdir]

/-- Witness for C10 at a concrete networkless show and label. -/
theorem networkless_matches_every_channel_witness :
    ({ id := 1, name := "Mystery", genres := ["Drama"], status := "Ended",
       networkName := none, webChannelName := none, ratingAvg := none,
       premieredYear := none } : ShowRec).networkName = none ∧
    ({ id := 1, name := "Mystery", genres := ["Drama"], status := "Ended",
       networkName := none, webChannelName := none, ratingAvg := none,
       premieredYear := none } : ShowRec).webChannelName = none ∧
    (networkOf
        { id := 1, name := "Mystery", genres := ["Drama"], status := "Ended",
          networkName := none, webChannelName := none, ratingAvg := none,
          premieredYear := none } = "" ∧
      jsIncludes (jsToLower "Netflix")
          (jsToLower (networkOf
            { id := 1, name := "Mystery", genres := ["Drama"], status := "Ended",
              networkName := none, webChannelName := none, ratingAvg := none,
              premieredYear := none })) = true ∧
      matchesChannel "Netflix"
          { id := 1, name := "Mystery", genres := ["Drama"], status := "Ended",
            networkName := none, webChannelName := none, ratingAvg := none,
            premieredYear := none } = true) :=
  ⟨rfl, rfl, networkless_matches_every_channel _ "Netflix" rfl rfl⟩

/-- C5 counterexample: a category click on "A&E" with an empty catalog
(zero substring matches) issues the fallback fetch with the *raw* label
— which differs from its sanitization "AE" — and appends nothing to the
search history (the claim requires the sanitized pipeline and exactly
one history append). -/
theorem channelFallback_cex :
    (searchByChannel [] "A&E" ["Breaking Bad"]).fallbackQuery = some "A&E" ∧
    App.sanitizeInput "A&E" = "AE" ∧
    AppOpt.sanitizeInput "A&E" = "AE" ∧
    (searchByChannel [] "A&E" ["Breaking Bad"]).historyAfter = ["Breaking Bad"] ∧
    (searchByChannel [] "Netflix" []).historyAfter.count "Netflix" = 0 := by
  refine ⟨by decide, by decide, by decide, by decide, by decide⟩

/-- C5 (amended): when the case-insensitive bidirectional substring
match yields zero shows, the category search falls back to a free-text
fetch whose query is the raw, unsanitized label, and the search history
is left unchanged by the whole category-search operation (no history
append, in either path). -/
theorem searchByChannel_fallback_raw (catalog : List ShowRec)
    (channel : String) (history : List String) :
    (searchByChannel catalog channel history).historyAfter = history ∧
    ((searchByChannel catalog channel history).fallbackQuery = some channel ↔
      catalog.filter (matchesChannel channel) = []) := by
  unfold searchByChannel
  refine ⟨?_, ?_⟩ <;> dsimp only <;> split <;>
    simp_all [List.length_eq_zero]

/-- C3: for every non-cancellation failure, `handleError` surfaces
exactly one user-visible error message — the one assigned by the fixed
failure-category-to-message mapping — and leaves the previously stored
raw and derived result sets untouched (the failure transitions the view
to the error display without clearing the result data). -/
theorem handleError_one_mapped_message (s : UiState) (e : JsError)
    (h : e.name ≠ "AbortError") :
    (handleError s e).2 = [categoryMessage (errCategory e)] ∧
    (handleError s e).1.errorShown = some (categoryMessage (errCategory e)) ∧
    (handleError s e).1.currentResults = s.currentResults ∧
    (handleError s e).1.filteredResults = s.filteredResults := by
  have he := errorMessageText_eq e
  simp [handleError, h, showError, he]

/-- Witness for C3: an axios timeout error (the spec's scenario) hits
the connection-check message and leaves a previously displayed result
set intact. -/
theorem handleError_one_mapped_message_witness :
    ({ name := "Error", code := "ECONNABORTED",
       message := "timeout of 10000ms exceeded", responseStatus := none,
       hasRequest := true } : JsError).name ≠ "AbortError" ∧
    (handleError
        { currentResults := [{ show' :=
            { id := 5, name := "Lost", genres := ["Drama"], status := "Ended",
              networkName := some "ABC", webChannelName := none,
              ratingAvg := none, premieredYear := some 2004 } }],
          filteredResults := [],
          errorShown := none }
        { name := "Error", code := "ECONNABORTED",
          message := "timeout of 10000ms exceeded", responseStatus := none,
          hasRequest := true }).1.currentResults =
      [{ show' :=
          { id := 5, name := "Lost", genres := ["Drama"], status := "Ended",
            networkName := some "ABC", webChannelName := none,
            ratingAvg := none, premieredYear := some 2004 } }] ∧
    (handleError
        { currentResults := [{ show' :=
            { id := 5, name := "Lost", genres := ["Drama"], status := "Ended",
              networkName := some "ABC", webChannelName := none,
              ratingAvg := none, premieredYear := some 2004 } }],
          filteredResults := [],
          errorShown := none }
        { name := "Error", code := "ECONNABORTED",
          message := "timeout of 10000ms exceeded", responseStatus := none,
          hasRequest := true }).2 =
      ["Request timed out. Please check your connection and try again."] :=
  ⟨by decide,
    (handleError_one_mapped_message _ _ (by decide)).2.2.1,
    by rw [(handleError_one_mapped_message _ _ (by decide)).1]; rfl⟩

/-- C6: after *every* insertion the history has length at most 10 and
starts with the inserted term, which occurs exactly once (any existing
occurrence was removed first); a duplicate-free history stays
duplicate-free; inserting a term already present does not grow the
history (the term just moves to the front).  The optimized variant
agrees with the app.js variant for terms of length at least 2, and for
any input it keeps the length-≤-10 and no-duplicate invariants. -/
theorem addToSearchHistory_ok (history : List String) (term : String) :
    (App.addToSearchHistory history term).length ≤ 10 ∧
    (history.Nodup → (App.addToSearchHistory history term).Nodup) ∧
    (App.addToSearchHistory history term).head? = some term ∧
    (App.addToSearchHistory history term).count term = 1 ∧
    (term ∈ history →
      (App.addToSearchHistory history term).length ≤ history.length) ∧
    (2 ≤ term.length →
      AppOpt.addToSearchHistory history term =
        App.addToSearchHistory history term) ∧
    (history.length ≤ 10 →
      (AppOpt.addToSearchHistory history term).length ≤ 10) ∧
    (history.Nodup → (AppOpt.addToSearchHistory history term).Nodup) := by
  have hterm_not : term ∉ history.filter (fun t => t ≠ term) := by simp
  have htake : App.addToSearchHistory history term =
      term :: (history.filter (fun t => t ≠ term)).take 9 := by
    unfold App.addToSearchHistory
    rw [show (10 : Nat) = 9 + 1 from rfl, List.take_succ_cons]
  have hlen10 : (App.addToSearchHistory history term).length ≤ 10 := by
    unfold App.addToSearchHistory
    exact List.length_take_le _ _
  have hnodup : history.Nodup → (App.addToSearchHistory history term).Nodup := by
    intro hnd
    have hcons : (term :: history.filter (fun t => t ≠ term)).Nodup :=
      List.nodup_cons.2 ⟨hterm_not, hnd.filter _⟩
    unfold App.addToSearchHistory
    exact hcons.sublist (List.take_sublist _ _)
  have hopt : ∀ P : List String → Prop,
      P history → P (App.addToSearchHistory history term) →
      P (AppOpt.addToSearchHistory history term) := by
    intro P h1 h2
    unfold AppOpt.addToSearchHistory
    split
    · exact h1
    · exact h2
  refine ⟨hlen10, hnodup, ?_, ?_, ?_, ?_, ?_, ?_⟩
  · rw [htake]; rfl
  · rw [htake, List.count_cons_self,
      List.count_eq_zero.2 (fun h => hterm_not (List.mem_of_mem_take h))]
  · intro hmem
    calc (App.addToSearchHistory history term).length
        ≤ (term :: history.filter (fun t => t ≠ term)).length := by
          unfold App.addToSearchHistory
          exact (List.take_sublist _ _).length_le
      _ = (history.filter (fun t => t ≠ term)).length + 1 := by simp
      _ ≤ history.length :=
          Nat.succ_le_of_lt
            (List.length_filter_lt_length_iff_exists.2 ⟨term, hmem, by simp⟩)
  · intro hlen
    unfold AppOpt.addToSearchHistory App.addToSearchHistory
    have h1 : ¬(term = "" || term.length < 2) = true := by
      intro h
      rcases Bool.or_eq_true_iff.1 h with h' | h'
      · have : term = "" := by simpa using h'
        rw [this] at hlen
        simp [String.length] at hlen
      · have : term.length < 2 := by simpa using h'
        omega
    rw [if_neg h1]
  · intro hhist
    exact hopt (fun l => l.length ≤ 10) hhist hlen10
  · intro hnd
    exact hopt (fun l => l.Nodup) hnd (hnodup hnd)

/-- Witness for C6: a fresh-term insertion into a full ten-entry
history stays at length 10, and a re-searched term moves to the front
of a duplicate-free history without duplication or growth. -/
theorem addToSearchHistory_ok_witness :
    (App.addToSearchHistory
        ["a1", "a2", "a3", "a4", "a5", "a6", "a7", "a8", "a9", "a10"]
        "fresh").length ≤ 10 ∧
    (["breaking bad", "lost", "dark"] : List String).Nodup ∧
    "lost" ∈ (["breaking bad", "lost", "dark"] : List String) ∧
    2 ≤ "lost".length ∧
    (App.addToSearchHistory ["breaking bad", "lost", "dark"] "lost").Nodup ∧
    (App.addToSearchHistory ["breaking bad", "lost", "dark"] "lost").count
        "lost" = 1 ∧
    (App.addToSearchHistory ["breaking bad", "lost", "dark"] "lost").length ≤
      (["breaking bad", "lost", "dark"] : List String).length ∧
    AppOpt.addToSearchHistory ["breaking bad", "lost", "dark"] "lost" =
      App.addToSearchHistory ["breaking bad", "lost", "dark"] "lost" :=
  ⟨(addToSearchHistory_ok _ _).1,
    by decide, by decide, by decide,
    (addToSearchHistory_ok _ _).2.1 (by decide),
    (addToSearchHistory_ok _ _).2.2.2.1,
    (addToSearchHistory_ok _ _).2.2.2.2.1 (by decide),
    (addToSearchHistory_ok _ _).2.2.2.2.2.1 (by decide)⟩

/-- C8: the filter/sort derivation is a pure function of the raw result
set and the filter state — equal inputs give equal derived output — and
it does not mutate the raw result set: the controller's raw list after
the call is the list it held before. -/
theorem applyFilters_pure (raw : List SearchItem) (fs : FilterState)
    (raw2 : List SearchItem) (fs2 : FilterState)
    (h1 : raw2 = raw) (h2 : fs2 = fs) :
    (applyFilters raw fs).1 = raw ∧
    (applyFilters raw2 fs2).2 = (applyFilters raw fs).2 := by
  subst h1; subst h2; exact ⟨rfl, rfl⟩

/-- Witness for C8 at a concrete result set and filter state. -/
theorem applyFilters_pure_witness :
    (([{ show' :=
        { id := 2, name := "Dark", genres := ["Thriller"], status := "Ended",
          networkName := none, webChannelName := some "Netflix",
          ratingAvg := some 8, premieredYear := some 2017 } }] :
        List SearchItem) =
      [{ show' :=
        { id := 2, name := "Dark", genres := ["Thriller"], status := "Ended",
          networkName := none, webChannelName := some "Netflix",
          ratingAvg := some 8, premieredYear := some 2017 } }]) ∧
    (applyFilters
        [{ show' :=
          { id := 2, name := "Dark", genres := ["Thriller"], status := "Ended",
            networkName := none, webChannelName := some "Netflix",
            ratingAvg := some 8, premieredYear := some 2017 } }]
        { genre := "", status := "", channel := "", favoritesOnly := false,
          favorites := [], sortBy := "rating" }).1 =
      [{ show' :=
        { id := 2, name := "Dark", genres := ["Thriller"], status := "Ended",
          networkName := none, webChannelName := some "Netflix",
          ratingAvg := some 8, premieredYear := some 2017 } }] :=
  ⟨rfl,
    (applyFilters_pure _ _ _ _ rfl rfl).1⟩

/-! ## Stable-sort lemmas -/

theorem sortInsert_split {α : Type} (cmp : α → α → Rat) (x : α) (l : List α) :
    ∃ l₁ l₂, l = l₁ ++ l₂ ∧ sortInsert cmp x l = l₁ ++ x :: l₂ ∧
      ∀ y ∈ l₁, ¬cmp x y ≤ 0 := by
  induction l with
  | nil => exact ⟨[], [], rfl, rfl, by simp⟩
  | cons y ys ih =>
    by_cases h : cmp x y ≤ 0
    · exact ⟨[], y :: ys, rfl, by simp [sortInsert, h], by simp⟩
    · obtain ⟨l₁, l₂, he, hs, hp⟩ := ih
      refine ⟨y :: l₁, l₂, by simp [he], by simp [sortInsert, h, hs], ?_⟩
      intro z hz
      rcases List.mem_cons.1 hz with hz | hz
      · subst hz; exact h
      · exact hp z hz

theorem mem_sortInsert {α : Type} (cmp : α → α → Rat) (x z : α) (l : List α) :
    z ∈ sortInsert cmp x l ↔ z = x ∨ z ∈ l := by
  obtain ⟨l₁, l₂, he, hs, -⟩ := sortInsert_split cmp x l
  subst he
  rw [hs]
  simp only [List.mem_append, List.mem_cons]
  tauto

theorem filter_sortInsert_key {α : Type} (key : α → Rat) (x : α) (l : List α)
    (q : Rat) :
    (sortInsert (fun a b => key b - key a) x l).filter
        (fun a => decide (key a = q)) =
      if key x = q then x :: l.filter (fun a => decide (key a = q))
      else l.filter (fun a => decide (key a = q)) := by
  obtain ⟨l₁, l₂, he, hs, hp⟩ :=
    sortInsert_split (fun a b => key b - key a) x l
  have hl₁ : ∀ y ∈ l₁, key x < key y := by
    intro y hy
    have h0 : ¬key y - key x ≤ 0 := hp y hy
    have := not_le.1 h0
    linarith
  by_cases hx : key x = q
  · have hnil : l₁.filter (fun a => decide (key a = q)) = [] := by
      rw [List.filter_eq_nil_iff]
      intro a ha
      simp only [decide_eq_true_eq]
      intro hq
      have := hl₁ a ha
      rw [hx, ← hq] at this
      exact lt_irrefl _ this
    rw [hs, he, List.filter_append, List.filter_append, hnil, if_pos hx]
    simp [hx]
  · rw [hs, he, List.filter_append, List.filter_append, if_neg hx]
    simp [hx]

theorem filter_jsStableSort_key {α : Type} (key : α → Rat) (l : List α)
    (q : Rat) :
    (jsStableSort (fun a b => key b - key a) l).filter
        (fun a => decide (key a = q)) =
      l.filter (fun a => decide (key a = q)) := by
  induction l with
  | nil => rfl
  | cons x xs ih =>
    rw [jsStableSort, filter_sortInsert_key, ih]
    by_cases hx : key x = q <;> simp [hx, List.filter_cons]

theorem pairwise_sortInsert_key {α : Type} (key : α → Rat) (x : α)
    (l : List α) (h : l.Pairwise (fun a b => key b ≤ key a)) :
    (sortInsert (fun a b => key b - key a) x l).Pairwise
      (fun a b => key b ≤ key a) := by
  induction l with
  | nil => simp [sortInsert]
  | cons y ys ih =>
    obtain ⟨hy, hys⟩ := List.pairwise_cons.1 h
    by_cases hc : key y - key x ≤ 0
    · rw [sortInsert, if_pos hc]
      have hxy : key y ≤ key x := by linarith [sub_nonpos.1 hc]
      refine List.pairwise_cons.2 ⟨?_, h⟩
      intro z hz
      rcases List.mem_cons.1 hz with hz | hz
      · subst hz; exact hxy
      · exact le_trans (hy z hz) hxy
    · rw [sortInsert, if_neg hc]
      have hyx : key x ≤ key y := by
        have := not_le.1 hc
        linarith
      refine List.pairwise_cons.2 ⟨?_, ih hys⟩
      intro z hz
      rcases (mem_sortInsert _ x z ys).1 hz with hz | hz
      · subst hz; exact hyx
      · exact hy z hz

theorem pairwise_jsStableSort_key {α : Type} (key : α → Rat) (l : List α) :
    (jsStableSort (fun a b => key b - key a) l).Pairwise
      (fun a b => key b ≤ key a) := by
  induction l with
  | nil => simp [jsStableSort]
  | cons x xs ih =>
    rw [jsStableSort]
    exact pairwise_sortInsert_key key x _ ih

theorem jsStableSort_const_zero {α : Type} (l : List α) :
    jsStableSort (fun _ _ => (0 : Rat)) l = l := by
  induction l with
  | nil => rfl
  | cons x xs ih =>
    rw [jsStableSort, ih]
    cases xs with
    | nil => rfl
    | cons y ys => simp [sortInsert]

theorem applyFilters_snd (raw : List SearchItem) (fs : FilterState) :
    (applyFilters raw fs).2 = jsStableSort (sortCmp fs.sortBy) (filterChain raw fs) :=
  rfl

theorem sortCmp_rating :
    sortCmp "rating" =
      fun a b => (fun it : SearchItem => ratingVal it.show') b -
        (fun it : SearchItem => ratingVal it.show') a := by
  funext a b
  simp [sortCmp]

theorem sortCmp_relevance : sortCmp "relevance" = fun _ _ => (0 : Rat) := by
  funext a b
  simp [sortCmp]

/-- C7: in the filter/sort derivation, sorting by rating-descending
keys every show by its rating with a missing rating as 0 and yields a
non-increasing sequence (so an unrated show never precedes a show with
positive rating), preserving the original relative order within every
equal-rating class (stability); sorting by "relevance" leaves the
filtered sequence — and hence the upstream API order — unchanged. -/
theorem applyFilters_sorting_ok (raw : List SearchItem) (fs : FilterState) :
    (applyFilters raw { fs with sortBy := "relevance" }).2 =
      filterChain raw { fs with sortBy := "relevance" } ∧
    List.Pairwise (fun a b => ratingVal b.show' ≤ ratingVal a.show')
      ((applyFilters raw { fs with sortBy := "rating" }).2) ∧
    ∀ q : Rat,
      ((applyFilters raw { fs with sortBy := "rating" }).2.filter
          (fun a => decide (ratingVal a.show' = q))) =
        ((filterChain raw { fs with sortBy := "rating" }).filter
          (fun a => decide (ratingVal a.show' = q))) := by
  refine ⟨?_, ?_, ?_⟩
  · rw [applyFilters_snd]
    show jsStableSort (sortCmp "relevance") _ = _
    rw [sortCmp_relevance, jsStableSort_const_zero]
  · rw [applyFilters_snd]
    show List.Pairwise _ (jsStableSort (sortCmp "rating") _)
    rw [sortCmp_rating]
    exact pairwise_jsStableSort_key (fun it : SearchItem => ratingVal it.show') _
  · intro q
    rw [applyFilters_snd]
    show (jsStableSort (sortCmp "rating") _).filter _ = _
    rw [sortCmp_rating]
    exact filter_jsStableSort_key (fun it : SearchItem => ratingVal it.show') _ q

/-! ## Debounce lemmas -/

theorem burst_foldl (ks : List (Nat × String)) :
    ∀ s : DebounceState,
      (∀ d q t v, s.timer = some (d, q) → ks.head? = some (t, v) → t < d) →
      List.Chain' (fun a b => a.1 ≤ b.1 ∧ b.1 < a.1 + 300) ks →
      (ks.foldl (fun st k => keystroke st k.1 k.2) s).fetches = s.fetches ∧
      (ks.foldl (fun st k => keystroke st k.1 k.2) s).lastSearchTerm =
        s.lastSearchTerm ∧
      ((ks = [] ∧ ks.foldl (fun st k => keystroke st k.1 k.2) s = s) ∨
        (∃ tl vl, ks.getLast? = some (tl, vl) ∧
          (ks.foldl (fun st k => keystroke st k.1 k.2) s).timer =
            (if (vl = "" || vl.length < 2 : Bool) then none
             else if vl = s.lastSearchTerm then none
             else some (tl + 300, vl)))) := by
  induction ks with
  | nil => exact fun s _ _ => ⟨rfl, rfl, .inl ⟨rfl, rfl⟩⟩
  | cons k rest ih =>
    intro s htimer hchain
    obtain ⟨t, v⟩ := k
    have hfire : fireDue t s = s := by
      cases hs : s.timer with
      | none => simp [fireDue, hs]
      | some dq =>
        obtain ⟨d, q⟩ := dq
        have hlt : t < d := htimer d q t v hs rfl
        simp only [fireDue, hs]
        rw [if_neg (by omega)]
    have hkey : keystroke s t v =
        (if v = "" || v.length < 2 then { s with timer := none }
         else if v = s.lastSearchTerm then { s with timer := none }
         else { s with timer := some (t + 300, v) }) := by
      rw [keystroke, hfire]
    have hf : (keystroke s t v).fetches = s.fetches := by
      rw [hkey]; split
      · rfl
      · split <;> rfl
    have hl : (keystroke s t v).lastSearchTerm = s.lastSearchTerm := by
      rw [hkey]; split
      · rfl
      · split <;> rfl
    have ht : (keystroke s t v).timer =
        (if (v = "" || v.length < 2 : Bool) then none
         else if v = s.lastSearchTerm then none
         else some (t + 300, v)) := by
      rw [hkey]; split
      · rfl
      · split <;> rfl
    obtain ⟨hrel, hchain'⟩ := List.chain'_cons'.1 hchain
    have hprem : ∀ d q t2 v2, (keystroke s t v).timer = some (d, q) →
        rest.head? = some (t2, v2) → t2 < d := by
      intro d q t2 v2 hsome hhead
      rw [ht] at hsome
      by_cases h1 : (v = "" || v.length < 2) = true
      · rw [if_pos h1] at hsome; cases hsome
      · rw [if_neg h1] at hsome
        by_cases h2 : v = s.lastSearchTerm
        · rw [if_pos h2] at hsome; cases hsome
        · rw [if_neg h2] at hsome
          obtain ⟨hd, -⟩ := Prod.mk.injEq .. ▸ Option.some.inj hsome
          have := hrel (t2, v2) hhead
          omega
    obtain ⟨ihf, ihl, ihdis⟩ := ih (keystroke s t v) hprem hchain'
    rw [List.foldl_cons]
    refine ⟨by rw [ihf, hf], by rw [ihl, hl], ?_⟩
    rcases ihdis with ⟨hnil, heq⟩ | ⟨tl, vl, hlast, htl⟩
    · subst hnil
      refine .inr ⟨t, v, rfl, ?_⟩
      rw [List.foldl_nil, ht]
    · refine .inr ⟨tl, vl, ?_, ?_⟩
      · cases rest with
        | nil => simp at hlast
        | cons r rest' => rw [List.getLast?_cons_cons]; exact hlast
      · rw [htl, hl]

/-- C2 counterexample: the burst "ba" (t=0) then "b" (t=50) has every
inter-keystroke gap below 300, yet issues zero fetches — not exactly
one fetch for the final value "b" — because the final keystroke's value
is shorter than 2 characters: it cancels the pending timer without
restarting it. -/
theorem debounced_burst_cex :
    List.Chain' (fun a b => a.1 ≤ b.1 ∧ b.1 < a.1 + 300)
      [((0 : Nat), "ba"), (50, "b")] ∧
    (runDebounce ⟨none, "", []⟩ [(0, "ba"), (50, "b")] 1000).fetches = [] := by
  refine ⟨?_, by decide⟩
  norm_num [List.chain'_cons, List.chain'_singleton]

/-- C2 (amended): for every nonempty keystroke burst with all
inter-keystroke gaps shorter than the 300-unit debounce interval,
started with no pending timer, *if* the final keystroke's value is at
least 2 characters and differs from the last accepted search term, then
exactly one fetch is issued — for the final keystroke's value, once 300
units have passed after it; every keystroke cancels the pending timer,
and only a keystroke passing these guards restarts it. -/
theorem debounced_burst_single_fetch (L : String)
    (ks : List (Nat × String)) (tl : Nat) (vl : String) (horizon : Nat)
    (hlast : ks.getLast? = some (tl, vl))
    (hchain : List.Chain' (fun a b => a.1 ≤ b.1 ∧ b.1 < a.1 + 300) ks)
    (hlen : 2 ≤ vl.length) (hne : vl ≠ L) (hhor : tl + 300 ≤ horizon) :
    (runDebounce ⟨none, L, []⟩ ks horizon).fetches = [vl] ∧
    (runDebounce ⟨none, L, []⟩ ks horizon).lastSearchTerm = vl := by
  obtain ⟨hf, hl, hdis⟩ :=
    burst_foldl ks ⟨none, L, []⟩ (by intro d q t v hsome; cases hsome) hchain
  rcases hdis with ⟨hnil, -⟩ | ⟨tl', vl', hlast', ht⟩
  · subst hnil; cases hlast
  · have hpair : tl = tl' ∧ vl = vl' := by
      rw [hlast] at hlast'
      have := Option.some.inj hlast'
      exact ⟨congrArg Prod.fst this, congrArg Prod.snd this⟩
    obtain ⟨h1, h2⟩ := hpair
    subst h1; subst h2
    have hg1 : ¬((vl = "" || vl.length < 2 : Bool) = true) := by
      simp only [Bool.or_eq_true, decide_eq_true_eq]
      push_neg
      refine ⟨?_, by omega⟩
      intro h
      rw [h] at hlen
      simp [String.length] at hlen
    have hg2 : ¬(vl = (⟨none, L, []⟩ : DebounceState).lastSearchTerm) := hne
    rw [if_neg hg1, if_neg hg2] at ht
    have hrun : runDebounce ⟨none, L, []⟩ ks horizon =
        { timer := none, lastSearchTerm := vl,
          fetches := (ks.foldl (fun st k => keystroke st k.1 k.2)
            ⟨none, L, []⟩).fetches ++ [vl] } := by
      rw [runDebounce]
      simp only [fireDue, ht]
      rw [if_pos hhor]
    rw [hrun, hf]
    exact ⟨rfl, rfl⟩

/-- Witness for C2 (amended) at the spec's "bat" scenario: keystrokes
"b", "ba", "bat" at 50-unit gaps issue exactly the fetch for "bat". -/
theorem debounced_burst_single_fetch_witness :
    ([((0 : Nat), "b"), (50, "ba"), (100, "bat")] :
        List (Nat × String)).getLast? = some (100, "bat") ∧
    List.Chain' (fun a b => a.1 ≤ b.1 ∧ b.1 < a.1 + 300)
      [((0 : Nat), "b"), (50, "ba"), (100, "bat")] ∧
    2 ≤ "bat".length ∧ "bat" ≠ "" ∧ 100 + 300 ≤ 400 ∧
    (runDebounce ⟨none, "", []⟩ [(0, "b"), (50, "ba"), (100, "bat")]
        400).fetches = ["bat"] :=
  ⟨by decide,
    by norm_num [List.chain'_cons, List.chain'_singleton],
    by decide, by decide, by decide,
    (debounced_burst_single_fetch "" _ 100 "bat" 400 (by decide)
      (by norm_num [List.chain'_cons, List.chain'_singleton])
      (by decide) (by decide) (by decide)).1⟩

/-! ## Request-sequencing lemmas -/

theorem acceptResponse_aborted (s : RaceState) (data : List SearchItem) :
    (acceptResponse s data).aborted = s.aborted := by
  rw [acceptResponse]
  dsimp only
  split
  · rfl
  · split <;> rfl

theorem raceStep_aborted_subset (s : RaceState) (ev : RaceEvent) :
    s.aborted ⊆ (raceStep s ev).aborted := by
  cases ev with
  | issue q =>
    dsimp [raceStep]
    cases s.latest with
    | none => exact fun x hx => hx
    | some g => exact fun x hx => List.mem_cons_of_mem _ hx
  | respondOk gen data =>
    dsimp [raceStep]
    split
    · exact fun x hx => hx
    · rw [acceptResponse_aborted]
      exact fun x hx => hx
  | respondErr gen e =>
    dsimp [raceStep]
    split
    · exact fun x hx => hx
    · exact fun x hx => hx

theorem raceSteps_aborted_subset (evs : List RaceEvent) :
    ∀ s : RaceState, s.aborted ⊆ (raceSteps s evs).aborted := by
  induction evs with
  | nil => exact fun s => fun x hx => hx
  | cons e rest ih =>
    intro s
    exact (raceStep_aborted_subset s e).trans (ih (raceStep s e))

theorem raceStep_respondOk_aborted (s : RaceState) (gen : Nat)
    (data : List SearchItem) (h : gen ∈ s.aborted) :
    raceStep s (.respondOk gen data) = s := by
  dsimp [raceStep]
  rw [if_pos h]

theorem raceStep_respondOk_live (s : RaceState) (gen : Nat)
    (data : List SearchItem) (h : gen ∉ s.aborted) :
    raceStep s (.respondOk gen data) = acceptResponse s data := by
  dsimp [raceStep]
  rw [if_neg h]

/-- C1 (code bug): request A (generation `a`, the latest issued) is
superseded by B; `abort()` settles A's promise by rejection, so A's
*result* is indeed never installed — but the rejection axios delivers
carries name `"CanceledError"`, not the `"AbortError"` that
`handleError` tests for, so A's cancellation rejection falls through
the swallow check and *surfaces* the mapped error message over B's
loading state.  The superseded request is not discarded silently, as
the spec (and the code's own "Don't show error for cancelled requests"
comment) intend. -/
theorem stale_cancellation_surfaces_error (s₀ : RaceState) (a : Nat)
    (qB : String) (dataA : List SearchItem) :
    a ∈ (raceStep { s₀ with latest := some a } (.issue qB)).aborted ∧
    raceStep (raceStep { s₀ with latest := some a } (.issue qB))
        (.respondOk a dataA) =
      raceStep { s₀ with latest := some a } (.issue qB) ∧
    axiosCancelError.name ≠ "AbortError" ∧
    errorMessageText axiosCancelError =
      "Network error. Please check your internet connection." ∧
    (raceStep { s₀ with latest := some a } (.issue qB)).display =
      .loading ∧
    raceStep (raceStep { s₀ with latest := some a } (.issue qB))
        (.respondErr a axiosCancelError) =
      { raceStep { s₀ with latest := some a } (.issue qB) with
          display := .errorMsg
            "Network error. Please check your internet connection." } := by
  have hmem : a ∈ (raceStep { s₀ with latest := some a }
      (.issue qB)).aborted := by
    dsimp [raceStep]
    exact List.mem_cons_self a _
  have hmsg : errorMessageText axiosCancelError =
      "Network error. Please check your internet connection." := by decide
  refine ⟨hmem, raceStep_respondOk_aborted _ _ _ hmem, by decide, hmsg,
    rfl, ?_⟩
  dsimp [raceStep]
  rw [if_neg (by decide), hmsg]

/-! ## Sanitization lemmas -/

theorem stripBad_not_bad (l : List Char) :
    ∀ c ∈ stripBad l, isBadChar c = false := by
  intro c hc
  have := (List.mem_filter.1 hc).2
  simpa using this

theorem mem_collapseGo :
    ∀ (b : Bool) (l : List Char) (c : Char), c ∈ collapseGo b l →
      c = ' ' ∨ c ∈ l := by
  intro b l
  induction l generalizing b with
  | nil => intro c hc; cases hc
  | cons d ds ih =>
    intro c hc
    rw [collapseGo] at hc
    by_cases hws : isJsWs d = true
    · rw [if_pos hws] at hc
      by_cases hb : b = true
      · rw [if_pos hb] at hc
        rcases ih true c hc with h | h
        · exact .inl h
        · exact .inr (List.mem_cons_of_mem _ h)
      · rw [if_neg hb] at hc
        rcases List.mem_cons.1 hc with h | h
        · exact .inl h
        · rcases ih true c h with h' | h'
          · exact .inl h'
          · exact .inr (List.mem_cons_of_mem _ h')
    · rw [if_neg hws] at hc
      rcases List.mem_cons.1 hc with h | h
      · exact .inr (h ▸ List.mem_cons_self _ _)
      · rcases ih false c h with h' | h'
        · exact .inl h'
        · exact .inr (List.mem_cons_of_mem _ h')

theorem allWsSpace_collapseGo (b : Bool) (l : List Char) :
    AllWsSpace (collapseGo b l) := by
  induction l generalizing b with
  | nil => intro c hc; cases hc
  | cons d ds ih =>
    intro c hc hwsc
    rw [collapseGo] at hc
    by_cases hws : isJsWs d = true
    · rw [if_pos hws] at hc
      by_cases hb : b = true
      · rw [if_pos hb] at hc
        exact ih true c hc hwsc
      · rw [if_neg hb] at hc
        rcases List.mem_cons.1 hc with h | h
        · exact h
        · exact ih true c h hwsc
    · rw [if_neg hws] at hc
      rcases List.mem_cons.1 hc with h | h
      · subst h; rw [hwsc] at hws; exact absurd rfl hws
      · exact ih false c h hwsc

theorem noWsHead_collapseGo_true (l : List Char) :
    noWsHead (collapseGo true l) = true := by
  induction l with
  | nil => rfl
  | cons d ds ih =>
    rw [collapseGo]
    by_cases hws : isJsWs d = true
    · rw [if_pos hws, if_pos rfl]
      exact ih
    · rw [if_neg hws]
      simp [noWsHead, hws]

theorem noWsHead_head? (l : List Char) (h : noWsHead l = true) :
    ∀ y ∈ l.head?, isJsWs y = false := by
  cases l with
  | nil => intro y hy; cases hy
  | cons c cs =>
    intro y hy
    cases hy
    simpa [noWsHead] using h

theorem noWsRun_collapseGo (b : Bool) (l : List Char) :
    NoWsRun (collapseGo b l) := by
  induction l generalizing b with
  | nil => exact List.chain'_nil
  | cons d ds ih =>
    rw [collapseGo]
    by_cases hws : isJsWs d = true
    · rw [if_pos hws]
      by_cases hb : b = true
      · rw [if_pos hb]; exact ih true
      · rw [if_neg hb]
        refine List.chain'_cons'.2 ⟨?_, ih true⟩
        intro y hy
        have := noWsHead_head? _ (noWsHead_collapseGo_true ds) y hy
        intro hand
        rw [this] at hand
        exact absurd hand.2 (by simp)
    · rw [if_neg hws]
      refine List.chain'_cons'.2 ⟨?_, ih false⟩
      intro y hy hand
      exact hws hand.1

theorem noWsRun_take (l : List Char) (n : Nat) (h : NoWsRun l) :
    NoWsRun (l.take n) := h.take n

theorem noWsRun_dropWhile (l : List Char) (h : NoWsRun l) :
    NoWsRun (l.dropWhile isJsWs) := h.suffix (List.dropWhile_suffix _)

theorem noWsRun_reverse (l : List Char) (h : NoWsRun l) :
    NoWsRun l.reverse := by
  refine List.chain'_reverse.2 (h.imp ?_)
  intro a b hab hand
  exact hab ⟨hand.2, hand.1⟩

theorem noWsHead_dropWhile (l : List Char) :
    noWsHead (l.dropWhile isJsWs) = true := by
  induction l with
  | nil => rfl
  | cons c cs ih =>
    rw [List.dropWhile_cons]
    by_cases h : isJsWs c = true
    · rw [if_pos h]; exact ih
    · rw [if_neg h]; simp [noWsHead, h]

theorem dropWhile_append_single (p : Char → Bool) (c : Char)
    (hc : p c = false) (l : List Char) :
    (l ++ [c]).dropWhile p = l.dropWhile p ++ [c] := by
  induction l with
  | nil => simp [List.dropWhile_cons, hc]
  | cons x xs ih =>
    rw [List.cons_append, List.dropWhile_cons, List.dropWhile_cons]
    by_cases h : p x = true
    · rw [if_pos h, if_pos h, ih]
    · rw [if_neg h, if_neg h, List.cons_append]

theorem noWsHead_trimR (l : List Char) (h : noWsHead l = true) :
    noWsHead (trimR l) = true := by
  cases l with
  | nil => rfl
  | cons c cs =>
    have hc : isJsWs c = false := by simpa [noWsHead] using h
    rw [trimR, List.reverse_cons, dropWhile_append_single _ _ hc]
    simp [noWsHead, hc]

theorem noWsHead_reverse_trimR (l : List Char) :
    noWsHead (trimR l).reverse = true := by
  rw [trimR, List.reverse_reverse]
  exact noWsHead_dropWhile _

theorem jsTrim_noWsHead (l : List Char) : noWsHead (jsTrim l) = true :=
  noWsHead_trimR _ (noWsHead_dropWhile l)

theorem jsTrim_noWsTail (l : List Char) :
    noWsHead (jsTrim l).reverse = true :=
  noWsHead_reverse_trimR _

theorem length_trimR_le (l : List Char) : (trimR l).length ≤ l.length := by
  rw [trimR, List.length_reverse]
  calc (l.reverse.dropWhile isJsWs).length
      ≤ l.reverse.length := (List.dropWhile_suffix _).sublist.length_le
    _ = l.length := List.length_reverse l

theorem length_jsTrim_le (l : List Char) : (jsTrim l).length ≤ l.length := by
  rw [jsTrim]
  calc (trimR (trimL l)).length
      ≤ (trimL l).length := length_trimR_le _
    _ ≤ l.length := (List.dropWhile_suffix _).sublist.length_le

theorem mem_trimR (l : List Char) (c : Char) (h : c ∈ trimR l) : c ∈ l := by
  rw [trimR, List.mem_reverse] at h
  exact List.mem_reverse.1 ((List.dropWhile_suffix _).sublist.subset h)

theorem mem_jsTrim (l : List Char) (c : Char) (h : c ∈ jsTrim l) : c ∈ l :=
  (List.dropWhile_suffix _).sublist.subset (mem_trimR _ _ h)

theorem stripBad_eq_self (l : List Char)
    (h : ∀ c ∈ l, isBadChar c = false) : stripBad l = l :=
  List.filter_eq_self.2 (fun a ha => by simp [h a ha])

theorem dropWhile_eq_self_of_noWsHead (l : List Char)
    (h : noWsHead l = true) : l.dropWhile isJsWs = l := by
  cases l with
  | nil => rfl
  | cons c cs =>
    have hc : isJsWs c = false := by simpa [noWsHead] using h
    rw [List.dropWhile_cons, if_neg (by simp [hc])]

theorem trimR_eq_self (l : List Char) (h : noWsHead l.reverse = true) :
    trimR l = l := by
  rw [trimR, dropWhile_eq_self_of_noWsHead _ h, List.reverse_reverse]

theorem jsTrim_eq_self (l : List Char) (h1 : noWsHead l = true)
    (h2 : noWsHead l.reverse = true) : jsTrim l = l := by
  rw [jsTrim, trimL, dropWhile_eq_self_of_noWsHead _ h1, trimR_eq_self _ h2]

theorem collapseGo_eq_self (l : List Char) (hrun : NoWsRun l)
    (hsp : AllWsSpace l) :
    collapseGo false l = l ∧
      (noWsHead l = true → collapseGo true l = l) := by
  induction l with
  | nil => exact ⟨rfl, fun _ => rfl⟩
  | cons c cs ih =>
    have hrun' : NoWsRun cs := hrun.tail
    have hsp' : AllWsSpace cs := fun d hd => hsp d (List.mem_cons_of_mem _ hd)
    obtain ⟨ih1, ih2⟩ := ih hrun' hsp'
    by_cases hws : isJsWs c = true
    · have hc : c = ' ' := hsp c (List.mem_cons_self _ _) hws
      have hhead : noWsHead cs = true := by
        cases cs with
        | nil => rfl
        | cons d ds =>
          have hrel := (List.chain'_cons'.1 hrun).1 d rfl
          simp only [noWsHead]
          by_cases hd : isJsWs d = true
          · exact absurd ⟨hws, hd⟩ hrel
          · simp [hd]
      constructor
      · rw [collapseGo, if_pos hws, if_neg (by simp), ih2 hhead, hc]
      · intro habs
        rw [noWsHead, hws] at habs
        cases habs
    · constructor
      · rw [collapseGo, if_neg hws, ih1]
      · intro _
        rw [collapseGo, if_neg hws, ih1]

theorem noWsRun_trimR (l : List Char) (h : NoWsRun l) : NoWsRun (trimR l) :=
  noWsRun_reverse _ (noWsRun_dropWhile _ (noWsRun_reverse _ h))

theorem noWsRun_jsTrim (l : List Char) (h : NoWsRun l) : NoWsRun (jsTrim l) :=
  noWsRun_trimR _ (noWsRun_dropWhile _ h)

theorem sanitizeInput_app_props (x : String) :
    (∀ c ∈ (App.sanitizeInput x).data, isBadChar c = false) ∧
    (App.sanitizeInput x).data.length ≤ 100 ∧
    noWsHead (App.sanitizeInput x).data = true ∧
    noWsHead (App.sanitizeInput x).data.reverse = true := by
  have hdata : (App.sanitizeInput x).data =
      jsTrim ((stripBad x.data).take 100) := rfl
  refine ⟨?_, ?_, ?_, ?_⟩
  · intro c hc
    rw [hdata] at hc
    exact stripBad_not_bad _ _ (List.mem_of_mem_take (mem_jsTrim _ _ hc))
  · rw [hdata]
    calc (jsTrim ((stripBad x.data).take 100)).length
        ≤ ((stripBad x.data).take 100).length := length_jsTrim_le _
      _ ≤ 100 := List.length_take_le _ _
  · rw [hdata]; exact jsTrim_noWsHead _
  · rw [hdata]; exact jsTrim_noWsTail _

theorem sanitizeInput_opt_props (x : String) :
    (∀ c ∈ (AppOpt.sanitizeInput x).data, isBadChar c = false) ∧
    (AppOpt.sanitizeInput x).data.length ≤ 100 ∧
    noWsHead (AppOpt.sanitizeInput x).data = true ∧
    noWsHead (AppOpt.sanitizeInput x).data.reverse = true ∧
    NoWsRun (AppOpt.sanitizeInput x).data ∧
    AllWsSpace (AppOpt.sanitizeInput x).data := by
  have hdata : (AppOpt.sanitizeInput x).data =
      jsTrim ((collapseWs (stripBad x.data)).take 100) := rfl
  refine ⟨?_, ?_, ?_, ?_, ?_, ?_⟩
  · intro c hc
    rw [hdata] at hc
    have hc1 := List.mem_of_mem_take (mem_jsTrim _ _ hc)
    rcases mem_collapseGo false _ c hc1 with h | h
    · subst h; decide
    · exact stripBad_not_bad _ _ h
  · rw [hdata]
    calc (jsTrim ((collapseWs (stripBad x.data)).take 100)).length
        ≤ ((collapseWs (stripBad x.data)).take 100).length :=
          length_jsTrim_le _
      _ ≤ 100 := List.length_take_le _ _
  · rw [hdata]; exact jsTrim_noWsHead _
  · rw [hdata]; exact jsTrim_noWsTail _
  · rw [hdata]
    exact noWsRun_jsTrim _ (noWsRun_take _ _ (noWsRun_collapseGo false _))
  · rw [hdata]
    intro c hc hws
    exact allWsSpace_collapseGo false (stripBad x.data) c
      (List.mem_of_mem_take (mem_jsTrim _ _ hc)) hws

/-- C9: sanitization is idempotent in both app variants: applying
`sanitizeInput` to its own output returns the output unchanged. -/
theorem sanitizeInput_idempotent (x : String) :
    App.sanitizeInput (App.sanitizeInput x) = App.sanitizeInput x ∧
    AppOpt.sanitizeInput (AppOpt.sanitizeInput x) = AppOpt.sanitizeInput x := by
  obtain ⟨a1, a2, a3, a4⟩ := sanitizeInput_app_props x
  obtain ⟨b1, b2, b3, b4, b5, b6⟩ := sanitizeInput_opt_props x
  constructor
  · show (⟨jsTrim ((stripBad (App.sanitizeInput x).data).take 100)⟩ :
        String) = App.sanitizeInput x
    rw [stripBad_eq_self _ a1, List.take_of_length_le a2,
      jsTrim_eq_self _ a3 a4]
  · show (⟨jsTrim ((collapseWs
        (stripBad (AppOpt.sanitizeInput x).data)).take 100)⟩ : String) =
      AppOpt.sanitizeInput x
    rw [stripBad_eq_self _ b1, collapseWs, (collapseGo_eq_self _ b5 b6).1,
      List.take_of_length_le b2, jsTrim_eq_self _ b3 b4]

/-- C4 counterexample: app.js's `sanitizeInput` does *not* collapse
whitespace runs ("a  b" keeps its double space), and app.js's
`performSearch` issues the fetch even when sanitization yields the
empty string (input "&&" fetches with query "") — the optimized variant
is the one that collapses and refuses. -/
theorem sanitize_pipeline_cex :
    App.sanitizeInput "a  b" = "a  b" ∧
    (App.sanitizeInput "a  b").data = ['a', ' ', ' ', 'b'] ∧
    isJsWs ' ' = true ∧
    AppOpt.sanitizeInput "a  b" = "a b" ∧
    App.sanitizeInput "&&" = "" ∧
    App.performSearchFetch "&&" = some "" ∧
    AppOpt.performSearchFetch "&&" = none :=
  ⟨by decide, by decide, by decide, by decide, by decide, by decide,
    by decide⟩

/-- C4 (amended): in `app-optimized.js` the sanitization strips
`<>"'&`, collapses whitespace runs, truncates to at most 100
characters and trims, and an empty sanitized term raises the
client-side validation failure with no fetch; in `app.js` the
sanitization strips, truncates and trims but does not collapse
whitespace runs, and the fetch is issued unconditionally with the
sanitized term, even when it is empty. -/
theorem sanitize_pipeline_ok (x : String) :
    (∀ c ∈ (AppOpt.sanitizeInput x).data, isBadChar c = false) ∧
    NoWsRun (AppOpt.sanitizeInput x).data ∧
    (AppOpt.sanitizeInput x).data.length ≤ 100 ∧
    noWsHead (AppOpt.sanitizeInput x).data = true ∧
    noWsHead (AppOpt.sanitizeInput x).data.reverse = true ∧
    (AppOpt.performSearchFetch x = none ↔ AppOpt.sanitizeInput x = "") ∧
    (∀ c ∈ (App.sanitizeInput x).data, isBadChar c = false) ∧
    (App.sanitizeInput x).data.length ≤ 100 ∧
    noWsHead (App.sanitizeInput x).data = true ∧
    noWsHead (App.sanitizeInput x).data.reverse = true ∧
    App.performSearchFetch x = some (App.sanitizeInput x) := by
  obtain ⟨a1, a2, a3, a4⟩ := sanitizeInput_app_props x
  obtain ⟨b1, b2, b3, b4, b5, b6⟩ := sanitizeInput_opt_props x
  refine ⟨b1, b5, b2, b3, b4, ?_, a1, a2, a3, a4, rfl⟩
  by_cases hs : AppOpt.sanitizeInput x = ""
  · simp [AppOpt.performSearchFetch, hs]
  · simp [AppOpt.performSearchFetch, hs]
